import Mathlib

/-
Verification of the sliding-window statistics kernels of
`UliAcceleration/SignalProcessing/SlidingWindow.py`.

Modelling conventions:
- a 1-D numpy float array is modelled as `List ℚ` (exact arithmetic; floating
  point rounding is not modelled), except for the final `np.sqrt` of the RMS
  kernels, which produces `ℝ` via `Real.sqrt`;
- Python integers (`window_size`, `shift_size`) are `ℤ`;
- a raised `ValueError` (the specification calls it `ConfigurationError`) and a
  numpy shape-mismatch error are modelled as the `Except` error branch.
-/

namespace UliAcceleration

/-- Errors a call can raise. `configurationError` models the `ValueError`
raised by parameter validation (the specification's `ConfigurationError`);
`broadcastError` models the runtime error numpy raises when two arrays of
incompatible shapes are multiplied element-wise. -/
inductive SWError where
  | configurationError
  | broadcastError
deriving DecidableEq, Repr

/-- Number of elements of the Python builtin `range(0, stop, step)`
(CPython semantics: for positive step, the count is `ceil(stop/step)` clamped
at zero; for negative step, `ceil((-stop)/(-step))` clamped at zero;
a zero step never reaches `range` in this code because it is validated away). -/
def pyRangeLen (stop step : ℤ) : ℕ :=
  if 0 < step then (stop.toNat + (step.toNat - 1)) / step.toNat
  else if step < 0 then ((-stop).toNat + ((-step).toNat - 1)) / (-step).toNat
  else 0

/-- The Python builtin `range(0, stop, step)` as the list
`[0, step, 2*step, ...]` with `pyRangeLen stop step` elements. -/
def pyRange0 (stop step : ℤ) : List ℤ :=
  (List.range (pyRangeLen stop step)).map (fun (i : ℕ) => (i : ℤ) * step)

/-- Normalize one bound of a Python slice `xs[a:b]` for a list of length `n`:
a negative index counts from the end, then the result is clamped to `[0, n]`. -/
def sliceIdx (n : ℕ) (i : ℤ) : ℕ :=
  if i < 0 then ((n : ℤ) + i).toNat else min i.toNat n

/-- Python/numpy basic slice `xs[a:b]` (step 1) of a 1-D array. -/
def pySlice (xs : List ℚ) (a b : ℤ) : List ℚ :=
  (xs.take (sliceIdx xs.length b)).drop (sliceIdx xs.length a)

/-- Element-wise numpy multiplication of two 1-D arrays, with numpy
broadcasting: equal lengths multiply pointwise, a length-1 operand is
broadcast over the other, any other length mismatch is a broadcast error. -/
def npMul (xs ys : List ℚ) : Except SWError (List ℚ) :=
  if xs.length = ys.length then .ok (List.zipWith (fun x y => x * y) xs ys)
  else if ys.length = 1 then .ok (xs.map (fun x => x * ys.headD 0))
  else if xs.length = 1 then .ok (ys.map (fun y => xs.headD 0 * y))
  else .error .broadcastError

/-- numpy `np.sum` of a 1-D array. -/
def npSum (xs : List ℚ) : ℚ := xs.sum

/-- numpy `np.mean` of a 1-D array: sum divided by length. -/
def npMean (xs : List ℚ) : ℚ := xs.sum / (xs.length : ℚ)

/-- numpy `np.square`: element-wise square. -/
def npSquare (xs : List ℚ) : List ℚ := xs.map (fun x => x * x)

/-- Runs a fallible computation for each list element in order, collecting the
results; the first error aborts the whole loop (this is how a numpy shape error
raised inside one iteration of a kernel loop aborts the kernel). -/
def exTraverse (f : α → Except SWError β) : List α → Except SWError (List β)
  | [] => .ok []
  | a :: l =>
      match f a with
      | .error e => .error e
      | .ok b =>
          match exTraverse f l with
          | .error e => .error e
          | .ok bs => .ok (b :: bs)

/-- Embeds `_sliding_window_chunkoffsets`: validates that neither size
parameter is zero, then returns
`range(0, data.shape[0] - (window_size - 1), shift_size)`.
Only the length of the data array is read, so the model takes the length. -/
def _sliding_window_chunkoffsets (length : ℕ) (window_size shift_size : ℤ) :
    Except SWError (List ℤ) :=
  if window_size = 0 then .error .configurationError
  else if shift_size = 0 then .error .configurationError
  else .ok (pyRange0 ((length : ℤ) - (window_size - 1)) shift_size)

/-- The loop of `_numba_sliding_window_rms_with_window` up to (but not
including) the final `np.sqrt` of each entry: `window_squared = window * window`
and `square_arr = np.square(data)` are computed once, then chunk `i` yields
`np.mean(square_arr[ofs:ofs+size] * window_squared)` with `ofs = i * shift_size`. -/
def rmsWithWindowMeans (data : List ℚ) (nchunks : ℕ) (window : List ℚ)
    (size shift_size : ℤ) : Except SWError (List ℚ) :=
  let window_squared := List.zipWith (fun x y => x * y) window window
  let square_arr := npSquare data
  exTraverse (fun (i : ℕ) =>
    let ofs := (i : ℤ) * shift_size
    (npMul (pySlice square_arr ofs (ofs + size)) window_squared).map npMean)
    (List.range nchunks)

/-- Embeds `_numba_sliding_window_rms_with_window`: `np.sqrt` of each mean
computed by `rmsWithWindowMeans`. -/
noncomputable def _numba_sliding_window_rms_with_window (data : List ℚ)
    (nchunks : ℕ) (window : List ℚ) (size shift_size : ℤ) :
    Except SWError (List ℝ) :=
  (rmsWithWindowMeans data nchunks window size shift_size).map
    (fun l => l.map (fun (q : ℚ) => Real.sqrt (q : ℝ)))

/-- The loop of `_numba_sliding_window_rms` up to (but not including) the final
`np.sqrt` of each entry: `square_arr = np.square(data)` is computed once, then
chunk `i` yields `np.mean(square_arr[ofs:ofs+size])` with `ofs = i * shift_size`. -/
def rmsMeans (data : List ℚ) (nchunks : ℕ) (size shift_size : ℤ) : List ℚ :=
  let square_arr := npSquare data
  (List.range nchunks).map (fun (i : ℕ) =>
    let ofs := (i : ℤ) * shift_size
    npMean (pySlice square_arr ofs (ofs + size)))

/-- Embeds `_numba_sliding_window_rms`: `np.sqrt` of each mean computed by
`rmsMeans`. -/
noncomputable def _numba_sliding_window_rms (data : List ℚ) (nchunks : ℕ)
    (size shift_size : ℤ) : List ℝ :=
  (rmsMeans data nchunks size shift_size).map (fun (q : ℚ) => Real.sqrt (q : ℝ))

/-- Embeds `_numba_sliding_window_average`: chunk `i` yields
`np.sum(data[ofs:ofs+size])`, and the result array is divided by `size`. -/
def _numba_sliding_window_average (data : List ℚ) (nchunks : ℕ)
    (size shift_size : ℤ) : List ℚ :=
  let result := (List.range nchunks).map (fun (i : ℕ) =>
    let ofs := (i : ℤ) * shift_size
    npSum (pySlice data ofs (ofs + size)))
  result.map (fun r => r / (size : ℚ))

/-- Embeds `_numba_sliding_window_average_with_weights`: chunk `i` yields
`np.sum(data[ofs:ofs+size] * window)`, and the result array is divided by
`np.sum(window)`. -/
def _numba_sliding_window_average_with_weights (data : List ℚ) (nchunks : ℕ)
    (window : List ℚ) (size shift_size : ℤ) : Except SWError (List ℚ) :=
  (exTraverse (fun (i : ℕ) =>
    let ofs := (i : ℤ) * shift_size
    (npMul (pySlice data ofs (ofs + size)) window).map npSum)
    (List.range nchunks)).map
    (fun result => result.map (fun r => r / npSum window))

/-- Embeds `_numba_sliding_window_integral_with_window`: chunk `i` yields
`np.sum(data[ofs:ofs+size] * window)`. -/
def _numba_sliding_window_integral_with_window (data : List ℚ) (nchunks : ℕ)
    (window : List ℚ) (size shift_size : ℤ) : Except SWError (List ℚ) :=
  exTraverse (fun (i : ℕ) =>
    let ofs := (i : ℤ) * shift_size
    (npMul (pySlice data ofs (ofs + size)) window).map npSum)
    (List.range nchunks)

/-- Embeds `_numba_sliding_window_integral`: chunk `i` yields
`np.sum(data[ofs:ofs+size])`. -/
def _numba_sliding_window_integral (data : List ℚ) (nchunks : ℕ)
    (size shift_size : ℤ) : List ℚ :=
  (List.range nchunks).map (fun (i : ℕ) =>
    let ofs := (i : ℤ) * shift_size
    npSum (pySlice data ofs (ofs + size)))

/-- Embeds the public `sliding_window_rms(data, window, window_size, shift_size)`:
propagate a validation error, return an empty array when there are zero chunks,
otherwise dispatch on whether a window function was supplied. -/
noncomputable def sliding_window_rms (data : List ℚ) (window : Option (List ℚ))
    (window_size shift_size : ℤ) : Except SWError (List ℝ) :=
  match _sliding_window_chunkoffsets data.length window_size shift_size with
  | .error e => .error e
  | .ok offs =>
      let num_chunks := offs.length
      if num_chunks = 0 then .ok []
      else match window with
        | none => .ok (_numba_sliding_window_rms data num_chunks window_size shift_size)
        | some w =>
            _numba_sliding_window_rms_with_window data num_chunks w window_size shift_size

/-- Embeds the public `sliding_window_integral(data, window, window_size, shift_size)`. -/
def sliding_window_integral (data : List ℚ) (window : Option (List ℚ))
    (window_size shift_size : ℤ) : Except SWError (List ℚ) :=
  match _sliding_window_chunkoffsets data.length window_size shift_size with
  | .error e => .error e
  | .ok offs =>
      let num_chunks := offs.length
      if num_chunks = 0 then .ok []
      else match window with
        | none => .ok (_numba_sliding_window_integral data num_chunks window_size shift_size)
        | some w =>
            _numba_sliding_window_integral_with_window data num_chunks w window_size shift_size

/-- Embeds the public `sliding_window_average(data, weights, window_size, shift_size)`. -/
def sliding_window_average (data : List ℚ) (weights : Option (List ℚ))
    (window_size shift_size : ℤ) : Except SWError (List ℚ) :=
  match _sliding_window_chunkoffsets data.length window_size shift_size with
  | .error e => .error e
  | .ok offs =>
      let num_chunks := offs.length
      if num_chunks = 0 then .ok []
      else match weights with
        | none => .ok (_numba_sliding_window_average data num_chunks window_size shift_size)
        | some w =>
            _numba_sliding_window_average_with_weights data num_chunks w window_size shift_size

/-- Embeds the public `sliding_window_offsets`: `np.asarray` of the chunk
offsets (the identity on the underlying values). Only the length of the data
array is read, so the model takes the length. -/
def sliding_window_offsets (length : ℕ) (window_size shift_size : ℤ) :
    Except SWError (List ℤ) :=
  _sliding_window_chunkoffsets length window_size shift_size

/-! Helper lemmas about the embedded primitives. -/

theorem exTraverse_ok (f : α → Except SWError β) (g : α → β) :
    ∀ l : List α, (∀ a ∈ l, f a = .ok (g a)) → exTraverse f l = .ok (l.map g)
  | [], _ => rfl
  | a :: l, h => by
      have ha := h a (List.mem_cons_self a l)
      have hl := exTraverse_ok f g l (fun b hb => h b (List.mem_cons_of_mem a hb))
      simp [exTraverse, ha, hl]

theorem exTraverse_cons_error (f : α → Except SWError β) (a : α) (l : List α)
    (e : SWError) (h : f a = .error e) : exTraverse f (a :: l) = .error e := by
  simp [exTraverse, h]

theorem lt_pyRangeLen_iff {S : ℤ} (hS : 0 < S) (stop : ℤ) (k : ℕ) :
    k < pyRangeLen stop S ↔ (k : ℤ) * S < stop := by
  unfold pyRangeLen
  rw [if_pos hS]
  have hs : 0 < S.toNat := by omega
  rw [Nat.lt_iff_add_one_le, Nat.le_div_iff_mul_le hs]
  have h1 : (k + 1) * S.toNat = k * S.toNat + S.toNat := by ring
  have h2 : ((k * S.toNat : ℕ) : ℤ) = (k : ℤ) * S := by
    push_cast [Int.toNat_of_nonneg hS.le]
    ring
  omega

theorem pyRangeLen_pos_eq_ceil {S : ℤ} (hS : 0 < S) (stop : ℤ) :
    pyRangeLen stop S = (⌈(stop : ℚ) / (S : ℚ)⌉).toNat := by
  have key : ∀ k : ℕ, k < pyRangeLen stop S ↔ k < (⌈(stop : ℚ) / (S : ℚ)⌉).toNat := by
    intro k
    rw [lt_pyRangeLen_iff hS, Int.lt_toNat, Int.lt_ceil]
    have hS' : (0 : ℚ) < (S : ℚ) := by exact_mod_cast hS
    rw [lt_div_iff₀ hS']
    constructor <;> intro h <;> exact_mod_cast h
  rcases Nat.lt_trichotomy (pyRangeLen stop S) ((⌈(stop : ℚ) / (S : ℚ)⌉).toNat) with h | h | h
  · exact absurd ((key _).mpr h) (lt_irrefl _)
  · exact h
  · exact absurd ((key _).mp h) (lt_irrefl _)

theorem pyRangeLen_nonpos {S stop : ℤ} (hS : 0 < S) (h : stop ≤ 0) :
    pyRangeLen stop S = 0 := by
  by_contra hne
  have h0 : 0 < pyRangeLen stop S := Nat.pos_of_ne_zero hne
  have h1 := (lt_pyRangeLen_iff hS stop 0).mp h0
  rw [Nat.cast_zero, zero_mul] at h1
  omega

theorem pyRangeLen_neg_step {S stop : ℤ} (hS : S < 0) (h : 0 ≤ stop) :
    pyRangeLen stop S = 0 := by
  unfold pyRangeLen
  rw [if_neg (by omega), if_pos hS]
  have h1 : (-stop).toNat = 0 := by omega
  rw [h1]
  exact Nat.div_eq_of_lt (by omega)

theorem pyRange0_eq_nil {S stop : ℤ} (h : pyRangeLen stop S = 0) :
    pyRange0 stop S = [] := by
  simp [pyRange0, h]

theorem mem_pyRange0 {S stop o : ℤ} :
    o ∈ pyRange0 stop S ↔ ∃ k : ℕ, k < pyRangeLen stop S ∧ o = (k : ℤ) * S := by
  unfold pyRange0
  rw [List.mem_map]
  constructor
  · rintro ⟨k, hk, hko⟩
    exact ⟨k, List.mem_range.mp hk, hko.symm⟩
  · rintro ⟨k, hk, rfl⟩
    exact ⟨k, List.mem_range.mpr hk, rfl⟩

theorem chunkoffsets_ok {W S : ℤ} (L : ℕ) (hW : W ≠ 0) (hS : S ≠ 0) :
    _sliding_window_chunkoffsets L W S = .ok (pyRange0 ((L : ℤ) - W + 1) S) := by
  unfold _sliding_window_chunkoffsets
  rw [if_neg hW, if_neg hS]
  have h : (L : ℤ) - (W - 1) = (L : ℤ) - W + 1 := by ring
  rw [h]

theorem pySlice_map (f : ℚ → ℚ) (xs : List ℚ) (a b : ℤ) :
    pySlice (xs.map f) a b = (pySlice xs a b).map f := by
  simp [pySlice, sliceIdx, List.map_take, List.map_drop]

theorem pySlice_length (xs : List ℚ) {a b : ℤ} (ha : 0 ≤ a) (hab : a ≤ b)
    (hb : b ≤ (xs.length : ℤ)) : (pySlice xs a b).length = (b - a).toNat := by
  unfold pySlice sliceIdx
  rw [if_neg (by omega : ¬ b < 0), if_neg (by omega : ¬ a < 0)]
  rw [List.length_drop, List.length_take]
  omega

theorem offs_valid {L : ℕ} {W S : ℤ} (hS : 0 < S) {i : ℕ}
    (hi : i < pyRangeLen ((L : ℤ) - W + 1) S) :
    0 ≤ (i : ℤ) * S ∧ (i : ℤ) * S + W ≤ (L : ℤ) := by
  have h := (lt_pyRangeLen_iff hS _ i).mp hi
  refine ⟨by positivity, by omega⟩

theorem sliding_window_rms_ok_offs (data : List ℚ) (window : Option (List ℚ))
    {W S : ℤ} {offs : List ℤ}
    (h : _sliding_window_chunkoffsets data.length W S = .ok offs) :
    sliding_window_rms data window W S =
      (if offs.length = 0 then .ok []
       else match window with
         | none => .ok (_numba_sliding_window_rms data offs.length W S)
         | some w => _numba_sliding_window_rms_with_window data offs.length w W S) := by
  unfold sliding_window_rms
  rw [h]

theorem sliding_window_integral_ok_offs (data : List ℚ) (window : Option (List ℚ))
    {W S : ℤ} {offs : List ℤ}
    (h : _sliding_window_chunkoffsets data.length W S = .ok offs) :
    sliding_window_integral data window W S =
      (if offs.length = 0 then .ok []
       else match window with
         | none => .ok (_numba_sliding_window_integral data offs.length W S)
         | some w => _numba_sliding_window_integral_with_window data offs.length w W S) := by
  unfold sliding_window_integral
  rw [h]

theorem sliding_window_average_ok_offs (data : List ℚ) (weights : Option (List ℚ))
    {W S : ℤ} {offs : List ℤ}
    (h : _sliding_window_chunkoffsets data.length W S = .ok offs) :
    sliding_window_average data weights W S =
      (if offs.length = 0 then .ok []
       else match weights with
         | none => .ok (_numba_sliding_window_average data offs.length W S)
         | some w => _numba_sliding_window_average_with_weights data offs.length w W S) := by
  unfold sliding_window_average
  rw [h]

theorem sliding_window_rms_none_ok (data : List ℚ) {W S : ℤ} {offs : List ℤ}
    (h : _sliding_window_chunkoffsets data.length W S = .ok offs) :
    sliding_window_rms data none W S =
      (if offs.length = 0 then .ok []
       else .ok (_numba_sliding_window_rms data offs.length W S)) := by
  rw [sliding_window_rms_ok_offs data none h]

theorem sliding_window_rms_some_ok (data w : List ℚ) {W S : ℤ} {offs : List ℤ}
    (h : _sliding_window_chunkoffsets data.length W S = .ok offs) :
    sliding_window_rms data (some w) W S =
      (if offs.length = 0 then .ok []
       else _numba_sliding_window_rms_with_window data offs.length w W S) := by
  rw [sliding_window_rms_ok_offs data (some w) h]

theorem sliding_window_integral_none_ok (data : List ℚ) {W S : ℤ} {offs : List ℤ}
    (h : _sliding_window_chunkoffsets data.length W S = .ok offs) :
    sliding_window_integral data none W S =
      (if offs.length = 0 then .ok []
       else .ok (_numba_sliding_window_integral data offs.length W S)) := by
  rw [sliding_window_integral_ok_offs data none h]

theorem sliding_window_integral_some_ok (data w : List ℚ) {W S : ℤ} {offs : List ℤ}
    (h : _sliding_window_chunkoffsets data.length W S = .ok offs) :
    sliding_window_integral data (some w) W S =
      (if offs.length = 0 then .ok []
       else _numba_sliding_window_integral_with_window data offs.length w W S) := by
  rw [sliding_window_integral_ok_offs data (some w) h]

theorem sliding_window_average_none_ok (data : List ℚ) {W S : ℤ} {offs : List ℤ}
    (h : _sliding_window_chunkoffsets data.length W S = .ok offs) :
    sliding_window_average data none W S =
      (if offs.length = 0 then .ok []
       else .ok (_numba_sliding_window_average data offs.length W S)) := by
  rw [sliding_window_average_ok_offs data none h]

theorem sliding_window_average_some_ok (data w : List ℚ) {W S : ℤ} {offs : List ℤ}
    (h : _sliding_window_chunkoffsets data.length W S = .ok offs) :
    sliding_window_average data (some w) W S =
      (if offs.length = 0 then .ok []
       else _numba_sliding_window_average_with_weights data offs.length w W S) := by
  rw [sliding_window_average_ok_offs data (some w) h]

theorem sliding_window_rms_propagates (data : List ℚ) (window : Option (List ℚ))
    {W S : ℤ} {e : SWError}
    (h : _sliding_window_chunkoffsets data.length W S = .error e) :
    sliding_window_rms data window W S = .error e := by
  unfold sliding_window_rms
  rw [h]

theorem sliding_window_integral_propagates (data : List ℚ) (window : Option (List ℚ))
    {W S : ℤ} {e : SWError}
    (h : _sliding_window_chunkoffsets data.length W S = .error e) :
    sliding_window_integral data window W S = .error e := by
  unfold sliding_window_integral
  rw [h]

theorem sliding_window_average_propagates (data : List ℚ) (weights : Option (List ℚ))
    {W S : ℤ} {e : SWError}
    (h : _sliding_window_chunkoffsets data.length W S = .error e) :
    sliding_window_average data weights W S = .error e := by
  unfold sliding_window_average
  rw [h]

theorem zipWith_mul_self (l : List ℚ) :
    List.zipWith (fun x y => x * y) l l = l.map (fun x => x * x) := by
  induction l with
  | nil => rfl
  | cons a l ih => simp [List.zipWith_cons_cons, ih]

theorem zipWith_mul_sq (xs ys : List ℚ) :
    List.zipWith (fun x y => x * y) (xs.map (fun x => x * x)) (ys.map (fun y => y * y)) =
      (List.zipWith (fun x y => x * y) xs ys).map (fun x => x * x) := by
  induction xs generalizing ys with
  | nil => rfl
  | cons a xs ih =>
      cases ys with
      | nil => rfl
      | cons b ys => simp [List.zipWith_cons_cons, ih, mul_mul_mul_comm]

theorem zipWith_mul_replicate_one (xs : List ℚ) (m : ℕ) (h : xs.length ≤ m) :
    List.zipWith (fun x y => x * y) xs (List.replicate m (1 : ℚ)) = xs := by
  induction xs generalizing m with
  | nil => rfl
  | cons a xs ih =>
      cases m with
      | zero => simp at h
      | succ m =>
          rw [List.replicate_succ, List.zipWith_cons_cons, mul_one,
            ih m (by simpa using h)]

theorem zipWith_mul_replicate_zero (xs : List ℚ) (m : ℕ) :
    List.zipWith (fun x y => x * y) xs (List.replicate m (0 : ℚ)) =
      List.replicate (min xs.length m) (0 : ℚ) := by
  induction xs generalizing m with
  | nil => simp
  | cons a xs ih =>
      cases m with
      | zero => simp
      | succ m =>
          rw [List.replicate_succ, List.zipWith_cons_cons, mul_zero, ih m]
          simp [List.replicate_succ, Nat.succ_min_succ]

theorem sum_replicate_zero (m : ℕ) : (List.replicate m (0 : ℚ)).sum = 0 := by
  simp

theorem pyRange0_map {α : Type} (f : ℤ → α) (stop S : ℤ) :
    (pyRange0 stop S).map f =
      (List.range (pyRangeLen stop S)).map (fun (i : ℕ) => f ((i : ℤ) * S)) := by
  rw [pyRange0, List.map_map]
  rfl

theorem slice_window_length (arr : List ℚ) {W S : ℤ} (hW : 0 < W) (hS : 0 < S)
    {i : ℕ} (hi : i < pyRangeLen ((arr.length : ℤ) - W + 1) S) :
    (pySlice arr ((i : ℤ) * S) ((i : ℤ) * S + W)).length = W.toNat := by
  obtain ⟨h0, h1⟩ := offs_valid hS hi
  rw [pySlice_length arr h0 (by omega) h1]
  omega

theorem weighted_loop_ok (arr w : List ℚ) {W S : ℤ} (hW : 0 < W) (hS : 0 < S)
    (hwlen : w.length = W.toNat) (g : List ℚ → ℚ) {n : ℕ}
    (hn : n ≤ pyRangeLen ((arr.length : ℤ) - W + 1) S) :
    exTraverse (fun (i : ℕ) =>
      let ofs := (i : ℤ) * S
      (npMul (pySlice arr ofs (ofs + W)) w).map g) (List.range n) =
    .ok ((List.range n).map (fun (i : ℕ) =>
      g (List.zipWith (fun x y => x * y)
        (pySlice arr ((i : ℤ) * S) ((i : ℤ) * S + W)) w))) := by
  apply exTraverse_ok
  intro i hi
  have hi' : i < pyRangeLen ((arr.length : ℤ) - W + 1) S :=
    lt_of_lt_of_le (List.mem_range.mp hi) hn
  have hslice := slice_window_length arr hW hS hi'
  show (npMul (pySlice arr ((i : ℤ) * S) ((i : ℤ) * S + W)) w).map g = _
  unfold npMul
  rw [if_pos (by omega : (pySlice arr ((i : ℤ) * S) ((i : ℤ) * S + W)).length = w.length)]
  rfl

theorem integral_with_window_ok (data w : List ℚ) {W S : ℤ} (hW : 0 < W)
    (hS : 0 < S) (hwlen : w.length = W.toNat) {n : ℕ}
    (hn : n ≤ pyRangeLen ((data.length : ℤ) - W + 1) S) :
    _numba_sliding_window_integral_with_window data n w W S =
      .ok ((List.range n).map (fun (i : ℕ) =>
        npSum (List.zipWith (fun x y => x * y)
          (pySlice data ((i : ℤ) * S) ((i : ℤ) * S + W)) w))) := by
  unfold _numba_sliding_window_integral_with_window
  exact weighted_loop_ok data w hW hS hwlen npSum hn

theorem average_with_weights_ok (data w : List ℚ) {W S : ℤ} (hW : 0 < W)
    (hS : 0 < S) (hwlen : w.length = W.toNat) {n : ℕ}
    (hn : n ≤ pyRangeLen ((data.length : ℤ) - W + 1) S) :
    _numba_sliding_window_average_with_weights data n w W S =
      .ok ((List.range n).map (fun (i : ℕ) =>
        npSum (List.zipWith (fun x y => x * y)
          (pySlice data ((i : ℤ) * S) ((i : ℤ) * S + W)) w) / npSum w)) := by
  unfold _numba_sliding_window_average_with_weights
  rw [weighted_loop_ok data w hW hS hwlen npSum hn]
  rw [show ∀ l : List ℚ, Except.map
      (fun result => result.map (fun r => r / npSum w))
      (Except.ok (ε := SWError) l) = .ok (l.map (fun r => r / npSum w))
    from fun l => rfl]
  rw [List.map_map]
  rfl

theorem rms_with_window_means_ok (data w : List ℚ) {W S : ℤ} (hW : 0 < W)
    (hS : 0 < S) (hwlen : w.length = W.toNat) {n : ℕ}
    (hn : n ≤ pyRangeLen ((data.length : ℤ) - W + 1) S) :
    rmsWithWindowMeans data n w W S =
      .ok ((List.range n).map (fun (i : ℕ) =>
        npMean (List.zipWith (fun x y => x * y)
          (pySlice (npSquare data) ((i : ℤ) * S) ((i : ℤ) * S + W))
          (w.map (fun x => x * x))))) := by
  unfold rmsWithWindowMeans
  rw [zipWith_mul_self w]
  have harr : ((npSquare data).length : ℤ) = (data.length : ℤ) := by
    simp [npSquare]
  have hwlen2 : (w.map (fun x => x * x)).length = W.toNat := by
    simpa using hwlen
  have hn2 : n ≤ pyRangeLen (((npSquare data).length : ℤ) - W + 1) S := by
    rw [harr]
    exact hn
  exact weighted_loop_ok (npSquare data) (w.map (fun x => x * x)) hW hS hwlen2 npMean hn2

/-! The claim theorems. -/

/-- C1: for every sequence length, positive window size and positive shift
size, the offset enumeration succeeds and returns exactly the arithmetic
sequence `0, S, 2S, ...` of all offsets `o` with `o + window_size ≤ length`,
and its number of elements is `ceil((length - window_size + 1) / shift_size)`
when `length ≥ window_size` and `0` otherwise. -/
theorem C1_enumerate_offsets_spec (L : ℕ) (W S : ℤ) (hW : 0 < W) (hS : 0 < S) :
    ∃ offs : List ℤ,
      _sliding_window_chunkoffsets L W S = .ok offs ∧
      offs = (List.range offs.length).map (fun (k : ℕ) => (k : ℤ) * S) ∧
      (∀ o : ℤ, o ∈ offs ↔ (∃ k : ℕ, o = (k : ℤ) * S) ∧ o + W ≤ (L : ℤ)) ∧
      offs.length =
        (if W ≤ (L : ℤ) then (⌈((L : ℚ) - (W : ℚ) + 1) / (S : ℚ)⌉).toNat else 0) := by
  refine ⟨pyRange0 ((L : ℤ) - W + 1) S, chunkoffsets_ok L hW.ne' hS.ne', ?_, ?_, ?_⟩
  · simp [pyRange0]
  · intro o
    rw [mem_pyRange0]
    constructor
    · rintro ⟨k, hk, rfl⟩
      have h := (lt_pyRangeLen_iff hS _ k).mp hk
      exact ⟨⟨k, rfl⟩, by omega⟩
    · rintro ⟨⟨k, rfl⟩, hle⟩
      exact ⟨k, (lt_pyRangeLen_iff hS _ k).mpr (by omega), rfl⟩
  · have hlen : (pyRange0 ((L : ℤ) - W + 1) S).length = pyRangeLen ((L : ℤ) - W + 1) S := by
      simp [pyRange0]
    rw [hlen]
    by_cases hWL : W ≤ (L : ℤ)
    · rw [if_pos hWL, pyRangeLen_pos_eq_ceil hS]
      have hcast : (((L : ℤ) - W + 1 : ℤ) : ℚ) = (L : ℚ) - (W : ℚ) + 1 := by
        push_cast
        ring
      rw [hcast]
    · rw [if_neg hWL]
      exact pyRangeLen_nonpos hS (by omega)

/-- C1 witness: length 5, window size 3, shift size 2 gives offsets `[0, 2]`,
of size `ceil(3 / 2) = 2`. -/
theorem C1_enumerate_offsets_spec_witness :
    (0 : ℤ) < 3 ∧ (0 : ℤ) < 2 ∧
    ∃ offs : List ℤ,
      _sliding_window_chunkoffsets 5 3 2 = .ok offs ∧
      offs = (List.range offs.length).map (fun (k : ℕ) => (k : ℤ) * 2) ∧
      (∀ o : ℤ, o ∈ offs ↔ (∃ k : ℕ, o = (k : ℤ) * 2) ∧ o + 3 ≤ (5 : ℤ)) ∧
      offs.length =
        (if (3 : ℤ) ≤ (5 : ℤ) then (⌈((5 : ℚ) - (3 : ℚ) + 1) / (2 : ℚ)⌉).toNat else 0) :=
  ⟨by norm_num, by norm_num, C1_enumerate_offsets_spec 5 3 2 (by norm_num) (by norm_num)⟩

/-- C2: a zero `window_size` or zero `shift_size` makes the offset enumeration
and all three public kernels fail with the configuration error, for every data
array and every weights option (so before any element of the data is read). -/
theorem C2_zero_size_configuration_error (data : List ℚ) (w : Option (List ℚ))
    (W S : ℤ) (h : W = 0 ∨ S = 0) :
    _sliding_window_chunkoffsets data.length W S = .error .configurationError ∧
    sliding_window_offsets data.length W S = .error .configurationError ∧
    sliding_window_rms data w W S = .error .configurationError ∧
    sliding_window_integral data w W S = .error .configurationError ∧
    sliding_window_average data w W S = .error .configurationError := by
  have hc : _sliding_window_chunkoffsets data.length W S = .error .configurationError := by
    unfold _sliding_window_chunkoffsets
    rcases h with h | h
    · rw [if_pos h]
    · by_cases hW : W = 0
      · rw [if_pos hW]
      · rw [if_neg hW, if_pos h]
  exact ⟨hc, hc, sliding_window_rms_propagates data w hc,
    sliding_window_integral_propagates data w hc,
    sliding_window_average_propagates data w hc⟩

/-- C2 witness: data `[1.0]`, window size `0`, shift size `1`. -/
theorem C2_zero_size_configuration_error_witness :
    _sliding_window_chunkoffsets [(1 : ℚ)].length 0 1 = .error .configurationError ∧
    sliding_window_offsets [(1 : ℚ)].length 0 1 = .error .configurationError ∧
    sliding_window_rms [(1 : ℚ)] none 0 1 = .error .configurationError ∧
    sliding_window_integral [(1 : ℚ)] none 0 1 = .error .configurationError ∧
    sliding_window_average [(1 : ℚ)] none 0 1 = .error .configurationError :=
  C2_zero_size_configuration_error [(1 : ℚ)] none 0 1 (Or.inl rfl)

/-- C7: with positive window and shift sizes, a data array shorter than the
window (including the empty array) yields the empty result from all three
kernels, with any weights option, and never an error. -/
theorem C7_short_input_empty (data : List ℚ) (w : Option (List ℚ)) (W S : ℤ)
    (hW : 0 < W) (hS : 0 < S) (hlen : (data.length : ℤ) < W) :
    sliding_window_rms data w W S = .ok [] ∧
    sliding_window_integral data w W S = .ok [] ∧
    sliding_window_average data w W S = .ok [] := by
  have hc : _sliding_window_chunkoffsets data.length W S = .ok [] := by
    rw [chunkoffsets_ok data.length hW.ne' hS.ne',
        pyRange0_eq_nil (pyRangeLen_nonpos hS (by omega))]
  refine ⟨?_, ?_, ?_⟩
  · rw [sliding_window_rms_ok_offs data w hc]
    rfl
  · rw [sliding_window_integral_ok_offs data w hc]
    rfl
  · rw [sliding_window_average_ok_offs data w hc]
    rfl

/-- C7 witness: data `[1.0]` with window size 500 and shift size 1. -/
theorem C7_short_input_empty_witness :
    sliding_window_rms [(1 : ℚ)] none 500 1 = .ok [] ∧
    sliding_window_integral [(1 : ℚ)] none 500 1 = .ok [] ∧
    sliding_window_average [(1 : ℚ)] none 500 1 = .ok [] :=
  C7_short_input_empty [(1 : ℚ)] none 500 1 (by norm_num) (by norm_num) (by norm_num)

/-- C4: with positive window and shift sizes, the unweighted RMS has one entry
per enumerated offset, and the entry for offset `o` is the square root of the
mean of the element-wise square of the window `data[o : o + window_size]`. -/
theorem C4_rms_unweighted (data : List ℚ) (W S : ℤ) (hW : 0 < W) (hS : 0 < S) :
    ∃ offs : List ℤ,
      _sliding_window_chunkoffsets data.length W S = .ok offs ∧
      sliding_window_rms data none W S =
        .ok (offs.map (fun o =>
          Real.sqrt ((npMean (npSquare (pySlice data o (o + W))) : ℚ) : ℝ))) := by
  have hc := chunkoffsets_ok data.length hW.ne' hS.ne'
  refine ⟨_, hc, ?_⟩
  rw [sliding_window_rms_none_ok data hc]
  by_cases h0 : (pyRange0 ((data.length : ℤ) - W + 1) S).length = 0
  · rw [if_pos h0, List.length_eq_zero.mp h0]
    rfl
  · rw [if_neg h0, pyRange0_map]
    have hlen : (pyRange0 ((data.length : ℤ) - W + 1) S).length =
        pyRangeLen ((data.length : ℤ) - W + 1) S := by
      simp [pyRange0]
    rw [hlen]
    unfold _numba_sliding_window_rms rmsMeans
    rw [List.map_map]
    refine congrArg Except.ok (List.map_congr_left ?_)
    intro i hi
    simp only [Function.comp, npSquare, pySlice_map]

/-- C4 witness: the sequence `[1.0, 2.0, 3.0]` with window size 3 and shift
size 1 gives the single value `sqrt((1 + 4 + 9)/3)`. -/
theorem C4_rms_unweighted_witness :
    sliding_window_rms [(1 : ℚ), 2, 3] none 3 1 = .ok [Real.sqrt ((14 : ℚ) / 3 : ℝ)] := by
  obtain ⟨offs, hoffs, hres⟩ :=
    C4_rms_unweighted [(1 : ℚ), 2, 3] 3 1 (by norm_num) (by norm_num)
  have hoffs2 : offs = [0] := by
    rw [chunkoffsets_ok _ (by norm_num) (by norm_num)] at hoffs
    have h := Except.ok.inj hoffs
    rw [← h]
    decide
  rw [hres, hoffs2]
  have hval : (npMean (npSquare (pySlice [(1 : ℚ), 2, 3] 0 (0 + 3))) : ℚ) = 14 / 3 := by
    norm_num [npMean, npSquare, pySlice, sliceIdx, show (3 : ℤ).toNat = 3 from rfl]
  simp only [List.map_cons, List.map_nil, hval]
  norm_num

/-- C5: with positive window and shift sizes and a weight vector of length
`window_size`, the windowed RMS (which squares the sequence once and the
weight vector once) has, for each enumerated offset `o`, the value
`sqrt(mean(square(window) * square(weights)))`, which equals
`sqrt(mean(square(window * weights)))` since `(x*w)^2 = x^2 * w^2`. -/
theorem C5_rms_windowed (data w : List ℚ) (W S : ℤ) (hW : 0 < W) (hS : 0 < S)
    (hwlen : (w.length : ℤ) = W) :
    ∃ offs : List ℤ,
      _sliding_window_chunkoffsets data.length W S = .ok offs ∧
      sliding_window_rms data (some w) W S =
        .ok (offs.map (fun o =>
          Real.sqrt ((npMean (List.zipWith (fun x y => x * y)
            (npSquare (pySlice data o (o + W))) (npSquare w)) : ℚ) : ℝ))) ∧
      sliding_window_rms data (some w) W S =
        .ok (offs.map (fun o =>
          Real.sqrt ((npMean (npSquare (List.zipWith (fun x y => x * y)
            (pySlice data o (o + W)) w)) : ℚ) : ℝ))) := by
  have hc := chunkoffsets_ok data.length hW.ne' hS.ne'
  have hwlen2 : w.length = W.toNat := by omega
  refine ⟨_, hc, ?_, ?_⟩ <;>
    rw [sliding_window_rms_some_ok data w hc] <;>
    by_cases h0 : (pyRange0 ((data.length : ℤ) - W + 1) S).length = 0
  · rw [if_pos h0, List.length_eq_zero.mp h0]
    rfl
  · rw [if_neg h0, pyRange0_map]
    have hlen : (pyRange0 ((data.length : ℤ) - W + 1) S).length =
        pyRangeLen ((data.length : ℤ) - W + 1) S := by
      simp [pyRange0]
    rw [hlen]
    unfold _numba_sliding_window_rms_with_window
    rw [rms_with_window_means_ok data w hW hS hwlen2 le_rfl]
    show Except.ok (List.map _ _) = _
    rw [List.map_map]
    refine congrArg Except.ok (List.map_congr_left ?_)
    intro i hi
    simp only [Function.comp, npSquare, pySlice_map]
  · rw [if_pos h0, List.length_eq_zero.mp h0]
    rfl
  · rw [if_neg h0, pyRange0_map]
    have hlen : (pyRange0 ((data.length : ℤ) - W + 1) S).length =
        pyRangeLen ((data.length : ℤ) - W + 1) S := by
      simp [pyRange0]
    rw [hlen]
    unfold _numba_sliding_window_rms_with_window
    rw [rms_with_window_means_ok data w hW hS hwlen2 le_rfl]
    show Except.ok (List.map _ _) = _
    rw [List.map_map]
    refine congrArg Except.ok (List.map_congr_left ?_)
    intro i hi
    simp only [Function.comp, npSquare, pySlice_map, zipWith_mul_sq]

/-- C5 witness: data `[1.0, 2.0, 3.0]`, weights `[2.0, 2.0, 2.0]`, window size
3, shift size 1: both formulations give `sqrt(mean([4, 16, 36])) = sqrt(56/3)`. -/
theorem C5_rms_windowed_witness :
    ((([(2 : ℚ), 2, 2] : List ℚ).length : ℤ) = 3) ∧
    ∃ offs : List ℤ,
      _sliding_window_chunkoffsets [(1 : ℚ), 2, 3].length 3 1 = .ok offs ∧
      sliding_window_rms [(1 : ℚ), 2, 3] (some [(2 : ℚ), 2, 2]) 3 1 =
        .ok (offs.map (fun o =>
          Real.sqrt ((npMean (List.zipWith (fun x y => x * y)
            (npSquare (pySlice [(1 : ℚ), 2, 3] o (o + 3))) (npSquare [(2 : ℚ), 2, 2])) : ℚ) : ℝ))) ∧
      sliding_window_rms [(1 : ℚ), 2, 3] (some [(2 : ℚ), 2, 2]) 3 1 =
        .ok (offs.map (fun o =>
          Real.sqrt ((npMean (npSquare (List.zipWith (fun x y => x * y)
            (pySlice [(1 : ℚ), 2, 3] o (o + 3)) [(2 : ℚ), 2, 2])) : ℚ) : ℝ))) :=
  ⟨by norm_num, C5_rms_windowed [(1 : ℚ), 2, 3] [(2 : ℚ), 2, 2] 3 1 (by norm_num)
    (by norm_num) (by norm_num)⟩

/-- C6: with positive window and shift sizes and a weight vector of length
`window_size`, the weighted average has one entry per enumerated offset, and
the entry for offset `o` is `sum(window * weights) / sum(weights)` (normalized
by the total weight, not by the window size). -/
theorem C6_average_weighted (data w : List ℚ) (W S : ℤ) (hW : 0 < W) (hS : 0 < S)
    (hwlen : (w.length : ℤ) = W) :
    ∃ offs : List ℤ,
      _sliding_window_chunkoffsets data.length W S = .ok offs ∧
      sliding_window_average data (some w) W S =
        .ok (offs.map (fun o =>
          npSum (List.zipWith (fun x y => x * y) (pySlice data o (o + W)) w) /
            npSum w)) := by
  have hc := chunkoffsets_ok data.length hW.ne' hS.ne'
  have hwlen2 : w.length = W.toNat := by omega
  refine ⟨_, hc, ?_⟩
  rw [sliding_window_average_some_ok data w hc]
  by_cases h0 : (pyRange0 ((data.length : ℤ) - W + 1) S).length = 0
  · rw [if_pos h0, List.length_eq_zero.mp h0]
    rfl
  · rw [if_neg h0, pyRange0_map]
    have hlen : (pyRange0 ((data.length : ℤ) - W + 1) S).length =
        pyRangeLen ((data.length : ℤ) - W + 1) S := by
      simp [pyRange0]
    rw [hlen]
    exact average_with_weights_ok data w hW hS hwlen2 le_rfl

/-- C6 witness: data `[1.0, 2.0, 3.0, 4.0]`, weights `[1.0, 2.0, 3.0]`, window
size 3, shift size 1. -/
theorem C6_average_weighted_witness :
    ((([(1 : ℚ), 2, 3] : List ℚ).length : ℤ) = 3) ∧
    ∃ offs : List ℤ,
      _sliding_window_chunkoffsets [(1 : ℚ), 2, 3, 4].length 3 1 = .ok offs ∧
      sliding_window_average [(1 : ℚ), 2, 3, 4] (some [(1 : ℚ), 2, 3]) 3 1 =
        .ok (offs.map (fun o =>
          npSum (List.zipWith (fun x y => x * y)
            (pySlice [(1 : ℚ), 2, 3, 4] o (o + 3)) [(1 : ℚ), 2, 3]) /
            npSum [(1 : ℚ), 2, 3])) :=
  ⟨by norm_num, C6_average_weighted [(1 : ℚ), 2, 3, 4] [(1 : ℚ), 2, 3] 3 1
    (by norm_num) (by norm_num) (by norm_num)⟩

/-- C8: with positive window and shift sizes, calling each weighted variant
with the all-ones weight vector of length `window_size` returns exactly the
same result as the corresponding unweighted variant (the model uses exact
rational arithmetic, so all three agree exactly; for RMS the squared all-ones
weights are again all-ones). -/
theorem C8_ones_weights_eq_unweighted (data : List ℚ) (W S : ℤ) (hW : 0 < W)
    (hS : 0 < S) :
    sliding_window_rms data (some (List.replicate W.toNat 1)) W S =
      sliding_window_rms data none W S ∧
    sliding_window_integral data (some (List.replicate W.toNat 1)) W S =
      sliding_window_integral data none W S ∧
    sliding_window_average data (some (List.replicate W.toNat 1)) W S =
      sliding_window_average data none W S := by
  have hc := chunkoffsets_ok data.length hW.ne' hS.ne'
  have hlen : (pyRange0 ((data.length : ℤ) - W + 1) S).length =
      pyRangeLen ((data.length : ℤ) - W + 1) S := by
    simp [pyRange0]
  have hrep : (List.replicate W.toNat (1 : ℚ)).length = W.toNat := by simp
  have hWq : ((W.toNat : ℕ) : ℚ) = (W : ℚ) := by
    have h1 : ((W.toNat : ℤ) : ℚ) = ((W : ℤ) : ℚ) := by rw [Int.toNat_of_nonneg hW.le]
    exact_mod_cast h1
  have hones : npSum (List.replicate W.toNat (1 : ℚ)) = (W : ℚ) := by
    rw [npSum, List.sum_replicate, nsmul_eq_mul, mul_one, hWq]
  refine ⟨?_, ?_, ?_⟩
  · rw [sliding_window_rms_some_ok data (List.replicate W.toNat 1) hc,
        sliding_window_rms_none_ok data hc]
    by_cases h0 : (pyRange0 ((data.length : ℤ) - W + 1) S).length = 0
    · rw [if_pos h0, if_pos h0]
    · rw [if_neg h0, if_neg h0, hlen]
      unfold _numba_sliding_window_rms_with_window
      rw [rms_with_window_means_ok data (List.replicate W.toNat 1) hW hS hrep le_rfl]
      show Except.ok (List.map _ _) = _
      unfold _numba_sliding_window_rms rmsMeans
      refine congrArg Except.ok ?_
      simp only [List.map_map]
      apply List.map_congr_left
      intro i hi
      have hi' : i < pyRangeLen ((data.length : ℤ) - W + 1) S := List.mem_range.mp hi
      have harr : (npSquare data).length = data.length := by simp [npSquare]
      have hsl : (pySlice (npSquare data) ((i : ℤ) * S) ((i : ℤ) * S + W)).length =
          W.toNat := by
        apply slice_window_length (npSquare data) hW hS
        rw [harr]
        exact hi'
      simp only [Function.comp, List.map_replicate, mul_one]
      rw [zipWith_mul_replicate_one _ _ hsl.le]
  · rw [sliding_window_integral_some_ok data (List.replicate W.toNat 1) hc,
        sliding_window_integral_none_ok data hc]
    by_cases h0 : (pyRange0 ((data.length : ℤ) - W + 1) S).length = 0
    · rw [if_pos h0, if_pos h0]
    · rw [if_neg h0, if_neg h0, hlen,
          integral_with_window_ok data (List.replicate W.toNat 1) hW hS hrep le_rfl]
      unfold _numba_sliding_window_integral
      refine congrArg Except.ok ?_
      apply List.map_congr_left
      intro i hi
      have hi' : i < pyRangeLen ((data.length : ℤ) - W + 1) S := List.mem_range.mp hi
      have hsl := slice_window_length data hW hS hi'
      rw [zipWith_mul_replicate_one _ _ hsl.le]
  · rw [sliding_window_average_some_ok data (List.replicate W.toNat 1) hc,
        sliding_window_average_none_ok data hc]
    by_cases h0 : (pyRange0 ((data.length : ℤ) - W + 1) S).length = 0
    · rw [if_pos h0, if_pos h0]
    · rw [if_neg h0, if_neg h0, hlen,
          average_with_weights_ok data (List.replicate W.toNat 1) hW hS hrep le_rfl]
      unfold _numba_sliding_window_average
      refine congrArg Except.ok ?_
      simp only [List.map_map]
      apply List.map_congr_left
      intro i hi
      have hi' : i < pyRangeLen ((data.length : ℤ) - W + 1) S := List.mem_range.mp hi
      have hsl := slice_window_length data hW hS hi'
      simp only [Function.comp]
      rw [zipWith_mul_replicate_one _ _ hsl.le, hones]

/-- C8 witness: data `[1.0, 2.0, 3.0]`, window size 3, shift size 1, weight
vector `[1, 1, 1]`. -/
theorem C8_ones_weights_eq_unweighted_witness :
    sliding_window_rms [(1 : ℚ), 2, 3] (some (List.replicate (3 : ℤ).toNat 1)) 3 1 =
      sliding_window_rms [(1 : ℚ), 2, 3] none 3 1 ∧
    sliding_window_integral [(1 : ℚ), 2, 3] (some (List.replicate (3 : ℤ).toNat 1)) 3 1 =
      sliding_window_integral [(1 : ℚ), 2, 3] none 3 1 ∧
    sliding_window_average [(1 : ℚ), 2, 3] (some (List.replicate (3 : ℤ).toNat 1)) 3 1 =
      sliding_window_average [(1 : ℚ), 2, 3] none 3 1 :=
  C8_ones_weights_eq_unweighted [(1 : ℚ), 2, 3] 3 1 (by norm_num) (by norm_num)

/-- C9: the weighted average never validates that the weight sum is nonzero:
with the all-zeros weight vector of length `window_size` (whose sum is zero)
and a data array admitting at least one window, the call succeeds (raising no
configuration error) and every entry is computed by dividing by the zero
weight sum. -/
theorem C9_zero_weight_sum_division (data : List ℚ) (W S : ℤ) (hW : 0 < W)
    (hS : 0 < S) (hl : W ≤ (data.length : ℤ)) :
    npSum (List.replicate W.toNat (0 : ℚ)) = 0 ∧
    ∃ offs : List ℤ,
      _sliding_window_chunkoffsets data.length W S = .ok offs ∧
      0 < offs.length ∧
      sliding_window_average data (some (List.replicate W.toNat 0)) W S =
        .ok (offs.map (fun o =>
          npSum (List.zipWith (fun x y => x * y) (pySlice data o (o + W))
            (List.replicate W.toNat 0)) / 0)) := by
  have hsum : npSum (List.replicate W.toNat (0 : ℚ)) = 0 := by simp [npSum]
  have hc := chunkoffsets_ok data.length hW.ne' hS.ne'
  have hlen : (pyRange0 ((data.length : ℤ) - W + 1) S).length =
      pyRangeLen ((data.length : ℤ) - W + 1) S := by
    simp [pyRange0]
  have hpos : 0 < pyRangeLen ((data.length : ℤ) - W + 1) S := by
    apply (lt_pyRangeLen_iff hS ((data.length : ℤ) - W + 1) 0).mpr
    simp only [Nat.cast_zero, zero_mul]
    omega
  refine ⟨hsum, _, hc, by rw [hlen]; exact hpos, ?_⟩
  rw [sliding_window_average_some_ok data (List.replicate W.toNat 0) hc,
    if_neg (by omega), pyRange0_map, hlen,
    average_with_weights_ok data (List.replicate W.toNat 0) hW hS (by simp) le_rfl]
  simp only [hsum]

/-- C9 witness: data `[1.0, 2.0, 3.0]`, window size 3, shift size 1, weights
`[0, 0, 0]`. -/
theorem C9_zero_weight_sum_division_witness :
    npSum (List.replicate (3 : ℤ).toNat (0 : ℚ)) = 0 ∧
    ∃ offs : List ℤ,
      _sliding_window_chunkoffsets [(1 : ℚ), 2, 3].length 3 1 = .ok offs ∧
      0 < offs.length ∧
      sliding_window_average [(1 : ℚ), 2, 3] (some (List.replicate (3 : ℤ).toNat 0)) 3 1 =
        .ok (offs.map (fun o =>
          npSum (List.zipWith (fun x y => x * y) (pySlice [(1 : ℚ), 2, 3] o (o + 3))
            (List.replicate (3 : ℤ).toNat 0)) / 0)) :=
  C9_zero_weight_sum_division [(1 : ℚ), 2, 3] 3 1 (by norm_num) (by norm_num)
    (by norm_num)

/-- C3 counterexample: a weight vector whose length differs from `window_size`
is not rejected with a configuration error even though a valid window exists:
a length-1 vector is silently broadcast and the call succeeds, and a length-2
vector fails only inside the kernel loop with a broadcast (shape) error. -/
theorem C3_counterexample :
    sliding_window_integral [(1 : ℚ), 2, 3] (some [(5 : ℚ)]) 3 1 = .ok [30] ∧
    sliding_window_integral [(1 : ℚ), 2, 3] (some [(1 : ℚ), 2]) 3 1 =
      .error .broadcastError := by
  have hc : _sliding_window_chunkoffsets [(1 : ℚ), 2, 3].length 3 1 = .ok [(0 : ℤ)] :=
    rfl
  constructor
  · rw [sliding_window_integral_some_ok [(1 : ℚ), 2, 3] [(5 : ℚ)] hc]
    norm_num [_numba_sliding_window_integral_with_window, exTraverse, npMul, pySlice,
      sliceIdx, npSum, Except.map, List.range_succ, show ((3 : ℤ)).toNat = 3 from rfl]
  · rw [sliding_window_integral_some_ok [(1 : ℚ), 2, 3] [(1 : ℚ), 2] hc]
    norm_num [_numba_sliding_window_integral_with_window, exTraverse, npMul, pySlice,
      sliceIdx, npSum, Except.map, List.range_succ, show ((3 : ℤ)).toNat = 3 from rfl]

theorem weighted_loop_error (arr w : List ℚ) {W S : ℤ} (hW : 0 < W) (hS : 0 < S)
    (hne : w.length ≠ W.toNat) (hne1 : w.length ≠ 1) (hneW : W.toNat ≠ 1)
    (g : List ℚ → ℚ) {n : ℕ} (hn0 : 0 < n)
    (hn : n ≤ pyRangeLen ((arr.length : ℤ) - W + 1) S) :
    exTraverse (fun (i : ℕ) =>
      let ofs := (i : ℤ) * S
      (npMul (pySlice arr ofs (ofs + W)) w).map g) (List.range n) =
      .error .broadcastError := by
  obtain ⟨m, rfl⟩ : ∃ m, n = m + 1 := ⟨n - 1, by omega⟩
  rw [List.range_succ_eq_map]
  apply exTraverse_cons_error
  have h0 : (0 : ℕ) < pyRangeLen ((arr.length : ℤ) - W + 1) S :=
    lt_of_lt_of_le hn0 hn
  have hsl := slice_window_length arr hW hS h0
  show (npMul (pySlice arr (((0 : ℕ) : ℤ) * S) (((0 : ℕ) : ℤ) * S + W)) w).map g =
    .error .broadcastError
  unfold npMul
  rw [if_neg (by omega), if_neg hne1, if_neg (by omega)]
  rfl

/-- C3 amended: no weight-length validation is performed before the loop.
With at least one valid window and a weight vector whose length differs from
`window_size`, when neither that length nor `window_size` is 1 (the numpy
broadcasting cases, in which the call silently succeeds), each kernel fails
with a broadcast error raised from inside the per-window loop, never with a
configuration error raised up front. -/
theorem C3_amended_no_length_validation (data w : List ℚ) (W S : ℤ) (hW : 0 < W)
    (hS : 0 < S) (hl : W ≤ (data.length : ℤ)) (hmis : (w.length : ℤ) ≠ W)
    (hw1 : w.length ≠ 1) (hW1 : W ≠ 1) :
    sliding_window_rms data (some w) W S = .error .broadcastError ∧
    sliding_window_integral data (some w) W S = .error .broadcastError ∧
    sliding_window_average data (some w) W S = .error .broadcastError := by
  have hc := chunkoffsets_ok data.length hW.ne' hS.ne'
  have hlen : (pyRange0 ((data.length : ℤ) - W + 1) S).length =
      pyRangeLen ((data.length : ℤ) - W + 1) S := by
    simp [pyRange0]
  have hpos : 0 < pyRangeLen ((data.length : ℤ) - W + 1) S := by
    apply (lt_pyRangeLen_iff hS ((data.length : ℤ) - W + 1) 0).mpr
    simp only [Nat.cast_zero, zero_mul]
    omega
  have hneW : W.toNat ≠ 1 := by omega
  have hne : w.length ≠ W.toNat := by omega
  refine ⟨?_, ?_, ?_⟩
  · rw [sliding_window_rms_some_ok data w hc, if_neg (by omega), hlen]
    unfold _numba_sliding_window_rms_with_window rmsWithWindowMeans
    rw [zipWith_mul_self w]
    have harr : (npSquare data).length = data.length := by simp [npSquare]
    rw [weighted_loop_error (npSquare data) (w.map (fun x => x * x)) hW hS
      (by simpa using hne) (by simpa using hw1) hneW npMean hpos
      (by rw [harr] : pyRangeLen ((data.length : ℤ) - W + 1) S ≤
        pyRangeLen (((npSquare data).length : ℤ) - W + 1) S)]
    rfl
  · rw [sliding_window_integral_some_ok data w hc, if_neg (by omega), hlen]
    unfold _numba_sliding_window_integral_with_window
    exact weighted_loop_error data w hW hS hne hw1 hneW npSum hpos le_rfl
  · rw [sliding_window_average_some_ok data w hc, if_neg (by omega), hlen]
    unfold _numba_sliding_window_average_with_weights
    rw [weighted_loop_error data w hW hS hne hw1 hneW npSum hpos le_rfl]
    rfl

/-- C3 amended witness: data `[1.0, 2.0, 3.0]`, weights `[1.0, 2.0]`, window
size 3, shift size 1: all three kernels fail with the broadcast error. -/
theorem C3_amended_no_length_validation_witness :
    sliding_window_rms [(1 : ℚ), 2, 3] (some [(1 : ℚ), 2]) 3 1 =
      .error .broadcastError ∧
    sliding_window_integral [(1 : ℚ), 2, 3] (some [(1 : ℚ), 2]) 3 1 =
      .error .broadcastError ∧
    sliding_window_average [(1 : ℚ), 2, 3] (some [(1 : ℚ), 2]) 3 1 =
      .error .broadcastError :=
  C3_amended_no_length_validation [(1 : ℚ), 2, 3] [(1 : ℚ), 2] 3 1 (by norm_num)
    (by norm_num) (by norm_num) (by norm_num) (by norm_num) (by norm_num)

/-- C10: a negative shift size is not rejected: with a positive window size and
a data array at least as long as the window, the offset enumeration and all
three kernels return the empty result and raise no error. -/
theorem C10_negative_shift_empty (data : List ℚ) (w : Option (List ℚ)) (W S : ℤ)
    (hW : 0 < W) (hS : S < 0) (hlen : W ≤ (data.length : ℤ)) :
    _sliding_window_chunkoffsets data.length W S = .ok [] ∧
    sliding_window_offsets data.length W S = .ok [] ∧
    sliding_window_rms data w W S = .ok [] ∧
    sliding_window_integral data w W S = .ok [] ∧
    sliding_window_average data w W S = .ok [] := by
  have hc : _sliding_window_chunkoffsets data.length W S = .ok [] := by
    rw [chunkoffsets_ok data.length hW.ne' (by omega : S ≠ 0),
        pyRange0_eq_nil (pyRangeLen_neg_step hS (by omega))]
  refine ⟨hc, hc, ?_, ?_, ?_⟩
  · rw [sliding_window_rms_ok_offs data w hc]
    rfl
  · rw [sliding_window_integral_ok_offs data w hc]
    rfl
  · rw [sliding_window_average_ok_offs data w hc]
    rfl

/-- C10 witness: data `[1.0, 2.0, 3.0]`, window size 2, shift size `-1`. -/
theorem C10_negative_shift_empty_witness :
    _sliding_window_chunkoffsets [(1 : ℚ), 2, 3].length 2 (-1) = .ok [] ∧
    sliding_window_offsets [(1 : ℚ), 2, 3].length 2 (-1) = .ok [] ∧
    sliding_window_rms [(1 : ℚ), 2, 3] none 2 (-1) = .ok [] ∧
    sliding_window_integral [(1 : ℚ), 2, 3] none 2 (-1) = .ok [] ∧
    sliding_window_average [(1 : ℚ), 2, 3] none 2 (-1) = .ok [] :=
  C10_negative_shift_empty [(1 : ℚ), 2, 3] none 2 (-1) (by norm_num) (by norm_num)
    (by norm_num)

end UliAcceleration
